import Mathlib

/-!
Shallow embedding of the scaflog-zoho-mcp-server core
(`src/models.py`, `src/service.py`, `src/scaflog_zoho_mcp_server/server.py`):
the metadata cache, the API client (`ZohoCreatorService`), and the resource
router (`handle_read_resource`), together with proofs about them.

Modelling conventions:
  * Wire JSON is the inductive `Json`; an HTTP response body that is not
    parseable JSON is `none`.
  * The upstream service is a deterministic oracle `HttpReq → HttpResp`;
    each service method returns its result together with the list of
    requests it issued, in order.
  * `datetime.now()` is an explicit `now : Int` argument (seconds);
    `datetime` values parsed from the wire are `PyDateTime`.
  * Python exceptions propagating out of a service method are collapsed
    into `UpstreamError` per the spec's error taxonomy, each value tagged
    with the URL and HTTP status of the upstream interaction whose
    processing raised (httpx's `HTTPStatusError` for a non-2xx status,
    `json` decode errors and `KeyError`/`TypeError` on a wrong-shaped
    body).
  * The `async with self._client as client:` block that every request
    method wraps around the shared `httpx.AsyncClient` is modelled
    separately (`ClientState`, `requestLifecycle`) following httpx's
    context-manager state machine; the request/response logic abstracts
    over it.
-/

namespace Scaflog

/-- JSON values as delivered by `response.json()`. -/
inductive Json where
  | null : Json
  | bool (b : Bool) : Json
  | num (n : Int) : Json
  | str (s : String) : Json
  | arr (elems : List Json) : Json
  | obj (fields : List (String × Json)) : Json
deriving Repr

/-- `j[k]` / `j.get(k)` on a JSON object: the value stored under key `k`. -/
def Json.get? (j : Json) (k : String) : Option Json :=
  match j with
  | .obj kvs => (kvs.find? (fun p => p.1 = k)).map (·.2)
  | _ => none

def Json.asStr : Json → Option String
  | .str s => some s
  | _ => none

def Json.asInt : Json → Option Int
  | .num n => some n
  | _ => none

def Json.asBool : Json → Option Bool
  | .bool b => some b
  | _ => none

def Json.asArr : Json → Option (List Json)
  | .arr xs => some xs
  | _ => none

def Json.asObj : Json → Option (List (String × Json))
  | .obj kvs => some kvs
  | _ => none

/-- String field `k` of a JSON object (e.g. `record['Created_Time']`). -/
def jsonStrField (j : Json) (k : String) : Option String :=
  (j.get? k).bind Json.asStr

/-! ### `datetime` (Python standard library, as used by `service.py`) -/

/-- A Python `datetime`: calendar fields plus an optional fixed UTC offset
(`none` models a naive datetime). -/
structure PyDateTime where
  year : Nat
  month : Nat
  day : Nat
  hour : Nat
  minute : Nat
  second : Nat
  utcOffsetMinutes : Option Int
deriving Repr, DecidableEq

def digitVal (c : Char) : Option Nat :=
  if c.isDigit then some (c.toNat - 48) else none

def num2 (a b : Char) : Option Nat := do
  pure (10 * (← digitVal a) + (← digitVal b))

def num4 (a b c d : Char) : Option Nat := do
  pure (1000 * (← digitVal a) + 100 * (← digitVal b) + 10 * (← digitVal c) + (← digitVal d))

def daysInMonth (y m : Nat) : Nat :=
  if m = 2 then (if (y % 4 = 0 ∧ y % 100 ≠ 0) ∨ y % 400 = 0 then 29 else 28)
  else if m = 4 ∨ m = 6 ∨ m = 9 ∨ m = 11 then 30
  else 31

def mkDateTime (y mo d h mi s : Nat) (off : Option Int) : Option PyDateTime :=
  if 1 ≤ mo ∧ mo ≤ 12 ∧ 1 ≤ d ∧ d ≤ daysInMonth y mo ∧ h ≤ 23 ∧ mi ≤ 59 ∧ s ≤ 59
  then some ⟨y, mo, d, h, mi, s, off⟩
  else none

/-- The `±HH:MM` UTC-offset suffix of an ISO-8601 string; `[]` means a naive
datetime.  A literal `Z` suffix is NOT accepted, modelling
`datetime.fromisoformat` before Python 3.11 (the reason `service.py`
rewrites `Z` to `+00:00` first). -/
def parseOffset : List Char → Option (Option Int)
  | [] => some none
  | [sign, h1, h2, ':', m1, m2] => do
      let h ← num2 h1 h2
      let m ← num2 m1 m2
      if (sign = '+' ∨ sign = '-') ∧ h ≤ 23 ∧ m ≤ 59 then
        let total : Int := h * 60 + m
        some (some (if sign = '-' then -total else total))
      else none
  | _ => none

/-- `datetime.fromisoformat`, restricted to the `YYYY-MM-DDTHH:MM:SS[±HH:MM]`
shapes this repository's wire format produces. -/
def fromisoformat (s : String) : Option PyDateTime :=
  match s.toList with
  | y1 :: y2 :: y3 :: y4 :: '-' :: mo1 :: mo2 :: '-' :: d1 :: d2 :: 'T' ::
      h1 :: h2 :: ':' :: mi1 :: mi2 :: ':' :: s1 :: s2 :: rest => do
      let y ← num4 y1 y2 y3 y4
      let mo ← num2 mo1 mo2
      let d ← num2 d1 d2
      let h ← num2 h1 h2
      let mi ← num2 mi1 mi2
      let sec ← num2 s1 s2
      let off ← parseOffset rest
      mkDateTime y mo d h mi sec off
  | _ => none

/-- Days since 1970-01-01 of a Gregorian date (civil-days formula). -/
def daysFromCivil (y m d : Int) : Int :=
  let y' := if m ≤ 2 then y - 1 else y
  let era := (if 0 ≤ y' then y' else y' - 399) / 400
  let yoe := y' - era * 400
  let mp := (m + 9) % 12
  let doy := (153 * mp + 2) / 5 + d - 1
  let doe := yoe * 365 + yoe / 4 - yoe / 100 + doy
  era * 146097 + doe - 719468

/-- The UTC instant (seconds since the Unix epoch) of an offset-aware
datetime; `none` for a naive one. -/
def PyDateTime.toUTCSeconds (dt : PyDateTime) : Option Int :=
  match dt.utcOffsetMinutes with
  | none => none
  | some off => some (daysFromCivil dt.year dt.month dt.day * 86400
      + dt.hour * 3600 + dt.minute * 60 + dt.second - off * 60)

/-- Python `str.replace` with a single-character pattern: every occurrence
of `pat` becomes `rep`. -/
def replaceChar (pat : Char) (rep : List Char) : List Char → List Char
  | [] => []
  | c :: rest => (if c = pat then rep else [c]) ++ replaceChar pat rep rest

/-- `s.replace('Z', '+00:00')` — the normalization `service.py` applies to
every wire timestamp before `fromisoformat`. -/
def normZ (s : String) : String :=
  String.mk (replaceChar 'Z' "+00:00".toList s.toList)

/-! ### Domain entities (`src/models.py`) -/

/-- `ZohoField` of `models.py`: a field in a Zoho Creator form. -/
structure ZohoField where
  api_name : String
  display_name : String
  field_type : String
  max_length : Option Int := none
  required : Bool := false
  lookup : Option Json := none
  choices : Option (List String) := none
deriving Repr

/-- `ZohoForm` of `models.py`.  `last_modified` defaults to the construction
time (`default_factory=datetime.now`); no code path of the repository reads
it, so it is carried as an opaque `Int` defaulting to 0. -/
structure ZohoForm where
  link_name : String
  display_name : String
  fields : List ZohoField := []
  access_type : String := "read"
  last_modified : Int := 0
deriving Repr

/-- `ZohoRecord` of `models.py`: a record in a Zoho Creator form.
`data` is the open `Dict[str, Any]` mapping. -/
structure ZohoRecord where
  id : String
  form_link_name : String
  created_time : PyDateTime
  modified_time : PyDateTime
  data : List (String × Json)
deriving Repr

/-! ### Metadata cache (`Cache` of `src/models.py`)

`Cache.forms` is a Python dict keyed by `link_name`; it is modelled as an
insertion-ordered association list with Python-dict update semantics
(`dictInsert`), so that `forms.values()` keeps a stable order. -/

def FormsDict : Type := List (String × ZohoForm)

/-- `d[k] = v` on a Python dict: overwrite in place if the key exists,
append otherwise. -/
def dictInsert (m : List (String × ZohoForm)) (k : String) (v : ZohoForm) :
    List (String × ZohoForm) :=
  if m.any (fun p => p.1 = k) then
    m.map (fun p => if p.1 = k then (k, v) else p)
  else m ++ [(k, v)]

/-- `{form.link_name: form for form in forms}` (the dict comprehension of
`Cache.update_forms`). -/
def dictOfForms (forms : List ZohoForm) : List (String × ZohoForm) :=
  forms.foldl (fun m f => dictInsert m f.link_name f) []

/-- `d.get(k)` on a Python dict. -/
def dictGet (m : List (String × ZohoForm)) (k : String) : Option ZohoForm :=
  (m.find? (fun p => p.1 = k)).map (·.2)

/-- `list(d.values())` on a Python dict. -/
def dictValues (m : List (String × ZohoForm)) : List ZohoForm := m.map (·.2)

/-- `Cache` of `models.py`: the form-metadata snapshot with a TTL.
`last_refresh` is an absolute time in seconds (`none` before the first
refresh); `datetime.now()` readings are passed in explicitly. -/
structure Cache where
  forms : List (String × ZohoForm) := []
  ttl : Int := 300
  last_refresh : Option Int := none
deriving Repr

/-- `Cache.needs_refresh` (note: a Python `datetime` is always truthy, so
`if not self.last_refresh` tests exactly for `None`). -/
def Cache.needs_refresh (c : Cache) (now : Int) : Bool :=
  match c.last_refresh with
  | none => true
  | some t => now - t > c.ttl

/-- `Cache.update_forms`: replace the mapping, stamp `last_refresh = now`. -/
def Cache.update_forms (c : Cache) (forms : List ZohoForm) (now : Int) : Cache :=
  { c with forms := dictOfForms forms, last_refresh := some now }

/-- `Cache.get_form`: exact-key lookup. -/
def Cache.get_form (c : Cache) (link_name : String) : Option ZohoForm :=
  dictGet c.forms link_name

/-! ### HTTP layer -/

/-- One upstream HTTP request as issued through the `httpx` client. -/
structure HttpReq where
  method : String
  url : String
  headers : List (String × String) := []
  params : List (String × String) := []
  body : Option Json := none
deriving Repr

/-- An upstream HTTP response: status code and body (`none` when the body
is not parseable JSON, i.e. `response.json()` raises). -/
structure HttpResp where
  status : Nat
  body : Option Json
deriving Repr

/-- httpx success statuses: `raise_for_status()` raises for everything
outside 2xx. -/
def HttpResp.success (r : HttpResp) : Bool :=
  200 ≤ r.status && r.status < 300

/-- The spec's `UpstreamError` taxonomy: a non-success HTTP status
(httpx `HTTPStatusError`), or a malformed body — not JSON, or JSON of the
wrong shape (`json` decode error, `KeyError`, `TypeError`).  Each carries
the URL and status of the upstream interaction it arose from. -/
inductive UpstreamError where
  | httpStatus (endpoint : String) (status : Nat)
  | malformedBody (endpoint : String) (status : Nat)
deriving Repr, DecidableEq

/-- `response = await client.<method>(...)`, `response.raise_for_status()`,
`data = response.json()` — the step every service method starts with. -/
def getJson (http : HttpReq → HttpResp) (req : HttpReq) : Except UpstreamError Json :=
  let resp := http req
  if resp.success then
    match resp.body with
    | some j => .ok j
    | none => .error (.malformedBody req.url resp.status)
  else .error (.httpStatus req.url resp.status)

/-! ### API client (`ZohoCreatorService` of `src/service.py`)

The service is a record of its immutable configuration plus the cache; the
authentication collaborator's `get_authorized_headers()` result is the
`headers` field, and the upstream service is the oracle `http` passed to
each method.  Every method returns its Python result (`Except` for the
possible exceptions) together with the requests it issued, in order. -/

structure ZohoCreatorService where
  base_url : String
  headers : List (String × String)
  cache : Cache
deriving Repr

def formsReq (svc : ZohoCreatorService) : HttpReq :=
  { method := "GET", url := svc.base_url ++ "/forms", headers := svc.headers }

def fieldsReq (svc : ZohoCreatorService) (form_link_name : String) : HttpReq :=
  { method := "GET", url := svc.base_url ++ "/forms/" ++ form_link_name ++ "/fields",
    headers := svc.headers }

/-- One entry of `data['fields']` turned into a `ZohoField`
(`_get_form_fields`'s comprehension; a missing or mis-typed mandatory key
is a `KeyError`/validation error, i.e. `none`). -/
def parseField (j : Json) : Option ZohoField := do
  let api_name ← jsonStrField j "api_name"
  let display_name ← jsonStrField j "display_name"
  let ftype ← jsonStrField j "type"
  some { api_name := api_name, display_name := display_name, field_type := ftype,
         max_length := (j.get? "max_length").bind Json.asInt,
         required := ((j.get? "required").bind Json.asBool).getD false,
         lookup := j.get? "lookup",
         choices := (j.get? "choices").bind fun c =>
           (c.asArr).bind fun xs => xs.mapM Json.asStr }

/-- The response processing of `_get_form_fields`: `raise_for_status()`,
`data = response.json()`, then `data['fields']` traversed by `parseField`. -/
def fieldsResult (http : HttpReq → HttpResp) (req : HttpReq) :
    Except UpstreamError (List ZohoField) :=
  match getJson http req with
  | .error e => .error e
  | .ok body =>
    match (body.get? "fields").bind Json.asArr with
    | none => .error (.malformedBody req.url (http req).status)
    | some fieldList =>
      match fieldList.mapM parseField with
      | none => .error (.malformedBody req.url (http req).status)
      | some fields => .ok fields

/-- `ZohoCreatorService._get_form_fields`: GET the form's field list and
construct the `ZohoField`s. -/
def ZohoCreatorService.get_form_fields (svc : ZohoCreatorService)
    (http : HttpReq → HttpResp) (form_link_name : String) :
    Except UpstreamError (List ZohoField) × List HttpReq :=
  let req := fieldsReq svc form_link_name
  (fieldsResult http req, [req])

/-- The body of `list_forms`'s `for form_data in data['forms']` loop:
extract `link_name`, fetch the form's fields (one request per form, in
order), construct the `ZohoForm`s.  `source` is the `/forms` request whose
body is being traversed, for error attribution. -/
def fetchForms (svc : ZohoCreatorService) (http : HttpReq → HttpResp)
    (source : HttpReq) :
    List Json → Except UpstreamError (List ZohoForm) × List HttpReq
  | [] => (.ok [], [])
  | fd :: rest =>
    match jsonStrField fd "link_name" with
    | none => (.error (.malformedBody source.url (http source).status), [])
    | some link =>
      match svc.get_form_fields http link with
      | (.error e, reqs) => (.error e, reqs)
      | (.ok fields, reqs) =>
        match jsonStrField fd "display_name" with
        | none => (.error (.malformedBody source.url (http source).status), reqs)
        | some disp =>
          let form : ZohoForm :=
            { link_name := link, display_name := disp, fields := fields,
              access_type := (jsonStrField fd "access_type").getD "read" }
          match fetchForms svc http source rest with
          | (.error e, reqs2) => (.error e, reqs ++ reqs2)
          | (.ok forms, reqs2) => (.ok (form :: forms), reqs ++ reqs2)

/-- `ZohoCreatorService.list_forms`.  Returns the result, the issued
requests and the service state after the call. -/
def ZohoCreatorService.list_forms (svc : ZohoCreatorService)
    (http : HttpReq → HttpResp) (now : Int) (force_refresh : Bool := false) :
    Except UpstreamError (List ZohoForm) × List HttpReq × ZohoCreatorService :=
  if !force_refresh && !(svc.cache.needs_refresh now) then
    (.ok (dictValues svc.cache.forms), [], svc)
  else
    let req := formsReq svc
    match getJson http req with
    | .error e => (.error e, [req], svc)
    | .ok body =>
      match (body.get? "forms").bind Json.asArr with
      | none => (.error (.malformedBody req.url (http req).status), [req], svc)
      | some formList =>
        match fetchForms svc http req formList with
        | (.error e, reqs) => (.error e, req :: reqs, svc)
        | (.ok forms, reqs) =>
          (.ok forms, req :: reqs,
           { svc with cache := svc.cache.update_forms forms now })

/-! ### Record operations -/

/-- Python truthiness of `criteria: Optional[str]` (`if criteria:`). -/
def truthyStr : Option String → Bool
  | some s => s ≠ ""
  | none => false

/-- Python truthiness of `limit: Optional[int]` (`if limit:`). -/
def truthyInt : Option Int → Bool
  | some n => n ≠ 0
  | none => false

/-- The `params` dict built by `get_records`: `criteria` and `limit` are
added only when truthy. -/
def recordsParams (criteria : Option String) (limit : Option Int) :
    List (String × String) :=
  (if truthyStr criteria then [("criteria", criteria.getD "")] else []) ++
  (if truthyInt limit then [("limit", toString (limit.getD 0))] else [])

def recordsUrl (svc : ZohoCreatorService) (form_link_name : String) : String :=
  svc.base_url ++ "/forms/" ++ form_link_name ++ "/records"

def recordUrl (svc : ZohoCreatorService) (form_link_name record_id : String) : String :=
  recordsUrl svc form_link_name ++ "/" ++ record_id

/-- `Created_Time`/`Modified_Time` of a wire record object, each passed
through `.replace('Z', '+00:00')` and then `datetime.fromisoformat` — the
idiom every record-returning method of `service.py` repeats. -/
def parseWireTimes (j : Json) : Option (PyDateTime × PyDateTime) := do
  let ct ← jsonStrField j "Created_Time"
  let mt ← jsonStrField j "Modified_Time"
  let created ← fromisoformat (normZ ct)
  let modified ← fromisoformat (normZ mt)
  some (created, modified)

/-- One entry of `data['records']` turned into a `ZohoRecord`
(`get_records`): `id=record['ID']`, normalized timestamps, and
`data=record` — the whole raw record object. -/
def recordFromWire (form_link_name : String) (j : Json) : Option ZohoRecord := do
  let obj ← j.asObj
  let id ← jsonStrField j "ID"
  let times ← parseWireTimes j
  some { id := id, form_link_name := form_link_name,
         created_time := times.1, modified_time := times.2, data := obj }

/-- `result['record']` turned into a `ZohoRecord` by `get_record`:
`id=record_id` (the argument), `data` is the raw record payload. -/
def recordFromSingle (record_id form_link_name : String) (j : Json) :
    Option ZohoRecord := do
  let obj ← j.asObj
  let times ← parseWireTimes j
  some { id := record_id, form_link_name := form_link_name,
         created_time := times.1, modified_time := times.2, data := obj }

/-- `result['record']` turned into a `ZohoRecord` by `create_record`:
`id=result['record']['ID']`, timestamps from the response, but
`data=data` — the caller-supplied mapping, not the upstream echo. -/
def recordFromCreateResp (form_link_name : String) (data : List (String × Json))
    (j : Json) : Option ZohoRecord := do
  let id ← jsonStrField j "ID"
  let times ← parseWireTimes j
  some { id := id, form_link_name := form_link_name,
         created_time := times.1, modified_time := times.2, data := data }

/-- `result['record']` turned into a `ZohoRecord` by `update_record`:
`id=record_id` (the argument), timestamps from the response, and
`data=data` — the caller-supplied mapping. -/
def recordFromUpdateResp (record_id form_link_name : String)
    (data : List (String × Json)) (j : Json) : Option ZohoRecord := do
  let times ← parseWireTimes j
  some { id := record_id, form_link_name := form_link_name,
         created_time := times.1, modified_time := times.2, data := data }

/-- `ZohoCreatorService.get_records`. -/
def ZohoCreatorService.get_records (svc : ZohoCreatorService)
    (http : HttpReq → HttpResp) (form_link_name : String)
    (criteria : Option String := none) (limit : Option Int := none) :
    Except UpstreamError (List ZohoRecord) × List HttpReq :=
  let req : HttpReq :=
    { method := "GET", url := recordsUrl svc form_link_name,
      headers := svc.headers, params := recordsParams criteria limit }
  (match getJson http req with
   | .error e => .error e
   | .ok body =>
     match (body.get? "records").bind Json.asArr with
     | none => .error (.malformedBody req.url (http req).status)
     | some recordList =>
       match recordList.mapM (recordFromWire form_link_name) with
       | none => .error (.malformedBody req.url (http req).status)
       | some records => .ok records,
   [req])

/-- `response.raise_for_status()`, `result = response.json()`,
`result['record']`, then the per-method `ZohoRecord` construction `mk` —
the step `get_record`, `create_record` and `update_record` share. -/
def recordResult (http : HttpReq → HttpResp) (req : HttpReq)
    (mk : Json → Option ZohoRecord) : Except UpstreamError ZohoRecord :=
  match getJson http req with
  | .error e => .error e
  | .ok result =>
    match result.get? "record" with
    | none => .error (.malformedBody req.url (http req).status)
    | some rj =>
      match mk rj with
      | none => .error (.malformedBody req.url (http req).status)
      | some rec => .ok rec

/-- `ZohoCreatorService.get_record`. -/
def ZohoCreatorService.get_record (svc : ZohoCreatorService)
    (http : HttpReq → HttpResp) (form_link_name record_id : String) :
    Except UpstreamError ZohoRecord × List HttpReq :=
  let req : HttpReq :=
    { method := "GET", url := recordUrl svc form_link_name record_id,
      headers := svc.headers }
  (recordResult http req (recordFromSingle record_id form_link_name), [req])

/-- `ZohoCreatorService.create_record`: POST `{"data": data}`. -/
def ZohoCreatorService.create_record (svc : ZohoCreatorService)
    (http : HttpReq → HttpResp) (form_link_name : String)
    (data : List (String × Json)) :
    Except UpstreamError ZohoRecord × List HttpReq :=
  let req : HttpReq :=
    { method := "POST", url := recordsUrl svc form_link_name,
      headers := svc.headers, body := some (Json.obj [("data", Json.obj data)]) }
  (recordResult http req (recordFromCreateResp form_link_name data), [req])

/-- `ZohoCreatorService.update_record`: PATCH `{"data": data}`. -/
def ZohoCreatorService.update_record (svc : ZohoCreatorService)
    (http : HttpReq → HttpResp) (form_link_name record_id : String)
    (data : List (String × Json)) :
    Except UpstreamError ZohoRecord × List HttpReq :=
  let req : HttpReq :=
    { method := "PATCH", url := recordUrl svc form_link_name record_id,
      headers := svc.headers, body := some (Json.obj [("data", Json.obj data)]) }
  (recordResult http req (recordFromUpdateResp record_id form_link_name data), [req])

/-! ### Connection-resource lifecycle

Every request method of `service.py` wraps its work in
`async with self._client as client:` where `self._client` is the one
shared `httpx.AsyncClient` created in `__init__`.  httpx's async client
is a state machine: `__aenter__` succeeds only from the UNOPENED state
(raising `RuntimeError` otherwise) and `__aexit__` calls `aclose()`,
moving to CLOSED.  `requestLifecycle` is that per-call wrapper with the
request/response body abstracted away. -/

inductive ClientState where
  | unopened : ClientState
  | opened : ClientState
  | closed : ClientState
deriving Repr, DecidableEq

inductive LifecycleError where
  /-- `RuntimeError("Cannot open a client instance more than once.")` -/
  | cannotOpenTwice : LifecycleError
  /-- `RuntimeError("Cannot reopen a client instance, once it has been closed.")` -/
  | cannotReopen : LifecycleError
deriving Repr, DecidableEq

/-- `httpx.AsyncClient.__aenter__`. -/
def clientEnter : ClientState → Except LifecycleError ClientState
  | .unopened => .ok .opened
  | .opened => .error .cannotOpenTwice
  | .closed => .error .cannotReopen

/-- `httpx.AsyncClient.__aexit__` (which awaits `aclose()`). -/
def clientExitAClose : ClientState → ClientState := fun _ => .closed

/-- The `async with self._client as client: <requests>` wrapper each
service method executes, acting on the shared client's state. -/
def requestLifecycle (st : ClientState) : Except LifecycleError Unit × ClientState :=
  match clientEnter st with
  | .error e => (.error e, st)
  | .ok st1 => (.ok (), clientExitAClose st1)

/-- `ZohoCreatorService.close`: `await self._client.aclose()`. -/
def serviceClose : ClientState → ClientState := fun _ => .closed

/-! ### Resource router
(`handle_read_resource` of `src/scaflog_zoho_mcp_server/server.py`)

The handler receives the address already split by `urlparse` into
`scheme`, `netloc` and `path`; the forms known to the service (what
`await service.list_forms()` returns) are a parameter.  `ReadOutcome`
records either the serialized payload's content or which `ValueError`
the handler raises; the `report` branch's outcome records the
`service.get_records(link_name, criteria)` invocation it performs. -/

/-- `s.strip("/")`. -/
def stripSlashes (s : String) : String :=
  String.mk (((s.toList.dropWhile (fun c => c = '/')).reverse.dropWhile
    (fun c => c = '/')).reverse)

/-- Python `str.split` with a single-character separator. -/
def splitOnChar (sep : Char) : List Char → List (List Char)
  | [] => [[]]
  | c :: rest =>
    let r := splitOnChar sep rest
    if c = sep then [] :: r
    else (c :: r.headD []) :: r.tail

/-- `full_path = f"{parsed.netloc}{parsed.path}".strip("/")` followed by
`[part for part in full_path.split("/") if part]`. -/
def parseParts (netloc path : String) : List String :=
  ((splitOnChar '/' (stripSlashes (netloc ++ path)).toList).map String.mk).filter
    (fun part => part ≠ "")

inductive ReadOutcome where
  /-- the `forms` listing payload -/
  | formsListing : ReadOutcome
  /-- the `reports` listing payload (via the external reports API) -/
  | reportsListing : ReadOutcome
  /-- the single-form payload: link_name, display_name, full field list -/
  | formDetail (link_name display_name : String) (fields : List ZohoField) : ReadOutcome
  /-- the `report` branch: `service.get_records(link_name, criteria)` -/
  | reportRecords (link_name : String) (criteria : Option String) : ReadOutcome
  /-- `ValueError(f"Unsupported URI scheme: {scheme}")` -/
  | errUnsupportedScheme (scheme : String) : ReadOutcome
  /-- `ValueError("Empty resource path")` -/
  | errEmptyPath : ReadOutcome
  /-- `ValueError(f"Missing link name for resource type: {rt}")` -/
  | errMissingLinkName (resource_type : String) : ReadOutcome
  /-- `ValueError(f"Form not found: {link_name}")` -/
  | errFormNotFound (link_name : String) : ReadOutcome
  /-- `ValueError(f"Unknown resource type: {rt}")` -/
  | errUnknownResourceType (resource_type : String) : ReadOutcome
deriving Repr

/-- The dispatch on `path_parts` inside `handle_read_resource`. -/
def dispatchParts (path_parts : List String) (forms : List ZohoForm) : ReadOutcome :=
  if path_parts.isEmpty || path_parts.headD "" = "" then .errEmptyPath
  else
    let resource_type := path_parts.headD ""
    if resource_type = "forms" then .formsListing
    else if resource_type = "reports" then .reportsListing
    else if path_parts.length < 2 then .errMissingLinkName resource_type
    else
      let link_name := path_parts.getD 1 ""
      if resource_type = "form" then
        match forms.find? (fun f => f.link_name = link_name) with
        | none => .errFormNotFound link_name
        | some form => .formDetail form.link_name form.display_name form.fields
      else if resource_type = "report" then
        let criteria :=
          if path_parts.length > 3 && path_parts.getD 2 "" = "filter" then
            some (path_parts.getD 3 "")
          else none
        .reportRecords link_name criteria
      else .errUnknownResourceType resource_type

/-- `handle_read_resource` of `src/scaflog_zoho_mcp_server/server.py`. -/
def handle_read_resource (scheme netloc path : String) (forms : List ZohoForm) :
    ReadOutcome :=
  if scheme ≠ "zoho" then .errUnsupportedScheme scheme
  else dispatchParts (parseParts netloc path) forms

/-! ### Concrete fixtures

One upstream form `test_form` with one field `test_field`, and one record
with `ID = "123"` — the data of `tests/conftest.py` — used to instantiate
the theorems below at concrete inputs. -/

def mockFormsJson : Json := .obj [("forms", .arr [.obj
  [("link_name", .str "test_form"), ("display_name", .str "Test Form"),
   ("access_type", .str "read")]])]

def mockFieldsJson : Json := .obj [("fields", .arr [.obj
  [("api_name", .str "test_field"), ("display_name", .str "Test Field"),
   ("type", .str "text"), ("required", .bool true)]])]

def mockSvc : ZohoCreatorService :=
  { base_url := "https://api", headers := [("Authorization", "Bearer test_token")],
    cache := {} }

/-- A healthy upstream for the forms/fields endpoints. -/
def mockHttp : HttpReq → HttpResp := fun req =>
  if req.url = "https://api/forms" then { status := 200, body := some mockFormsJson }
  else if req.url = "https://api/forms/test_form/fields" then
    { status := 200, body := some mockFieldsJson }
  else { status := 404, body := none }

/-- An upstream that serves HTTP 500 with an unparseable body everywhere. -/
def failHttp : HttpReq → HttpResp := fun _ => { status := 500, body := none }

def testField : ZohoField :=
  { api_name := "test_field", display_name := "Test Field", field_type := "text",
    required := true }

def testForm : ZohoForm :=
  { link_name := "test_form", display_name := "Test Form", fields := [testField] }

/-- `mockSvc` right after a successful refresh at time 0. -/
def mockSvcAfter : ZohoCreatorService :=
  { mockSvc with cache := mockSvc.cache.update_forms [testForm] 0 }

def formA : ZohoForm := { link_name := "a", display_name := "A" }

def formB : ZohoForm := { link_name := "b", display_name := "B" }

def dtJan2024 : PyDateTime := ⟨2024, 1, 1, 0, 0, 0, some 0⟩

/-- The wire record of the conftest mock, except that upstream reports
`ID = "999"` — distinct from the caller-supplied record id `"123"`. -/
def cexRespRecord : Json := .obj
  [("ID", .str "999"), ("Created_Time", .str "2024-01-01T00:00:00Z"),
   ("Modified_Time", .str "2024-01-01T00:00:00Z"),
   ("test_field", .str "server_value")]

/-- An upstream accepting the write endpoints and echoing `cexRespRecord`. -/
def writeHttp : HttpReq → HttpResp := fun req =>
  if req.method = "POST" || req.method = "PATCH" then
    { status := 200, body := some (Json.obj [("record", cexRespRecord)]) }
  else { status := 404, body := none }

def cexData : List (String × Json) := [("test_field", .str "new_value")]

/-- What `update_record("test_form", "123", cexData)` returns against
`writeHttp`. -/
def cexUpdatedRec : ZohoRecord :=
  { id := "123", form_link_name := "test_form", created_time := dtJan2024,
    modified_time := dtJan2024, data := cexData }

/-- What `create_record("test_form", cexData)` returns against `writeHttp`. -/
def cexCreatedRec : ZohoRecord :=
  { id := "999", form_link_name := "test_form", created_time := dtJan2024,
    modified_time := dtJan2024, data := cexData }

/-- A wire record carrying both spellings of the same UTC instant. -/
def tsRecordJson : Json := .obj
  [("Created_Time", .str "2024-01-01T00:00:00Z"),
   ("Modified_Time", .str "2024-01-01T00:00:00+00:00")]

/-- Which failing upstream interaction an `UpstreamError` reports: the
request's URL and the response's status, with a non-success status for
`httpStatus` and a passed `raise_for_status` for `malformedBody`. -/
def errorOf (http : HttpReq → HttpResp) (r : HttpReq) (e : UpstreamError) : Prop :=
  (e = .httpStatus r.url (http r).status ∧ (http r).success = false) ∨
  (e = .malformedBody r.url (http r).status ∧ (http r).success = true)

/-! ## Theorems -/

/-! ### Metadata cache -/

theorem mem_dictInsert {m : List (String × ZohoForm)} {k : String} {v : ZohoForm}
    {p : String × ZohoForm} (hp : p ∈ dictInsert m k v) : p = (k, v) ∨ p ∈ m := by
  unfold dictInsert at hp
  split at hp
  · obtain ⟨q, hq, hpq⟩ := List.mem_map.mp hp
    by_cases h : q.1 = k
    · left
      rw [← hpq]
      simp [h]
    · right
      rw [← hpq]
      simpa [h] using hq
  · rcases List.mem_append.mp hp with h | h
    · exact Or.inr h
    · exact Or.inl (by simpa using h)

theorem mem_dictOfForms_aux (l : List ZohoForm) :
    ∀ (m : List (String × ZohoForm)) (p : String × ZohoForm),
      p ∈ l.foldl (fun m f => dictInsert m f.link_name f) m →
      p ∈ m ∨ ∃ f ∈ l, p = (f.link_name, f) := by
  induction l with
  | nil => exact fun m p hp => Or.inl hp
  | cons f l ih =>
    intro m p hp
    rcases ih _ p hp with h | ⟨g, hg, hpg⟩
    · rcases mem_dictInsert h with h' | h'
      · exact Or.inr ⟨f, List.mem_cons_self _ _, h'⟩
      · exact Or.inl h'
    · exact Or.inr ⟨g, List.mem_cons_of_mem _ hg, hpg⟩

theorem mem_dictOfForms {l : List ZohoForm} {p : String × ZohoForm}
    (hp : p ∈ dictOfForms l) : ∃ f ∈ l, p = (f.link_name, f) := by
  rcases mem_dictOfForms_aux l [] p hp with h | h
  · cases h
  · exact h

/-- C6: `needs_refresh` is true exactly when no refresh has ever occurred or
`now - last_refresh` exceeds the TTL; hence for any positive TTL it is false
at the instant of an `update_forms` call and true once time has advanced
beyond the TTL past that call. -/
theorem needs_refresh_iff_stale (c : Cache) (now : Int) :
    (c.needs_refresh now = true ↔
      c.last_refresh = none ∨ ∃ t, c.last_refresh = some t ∧ now - t > c.ttl) ∧
    (∀ (forms : List ZohoForm) (t : Int), 0 < c.ttl →
      (c.update_forms forms t).needs_refresh t = false ∧
      ∀ now2, t + c.ttl < now2 → (c.update_forms forms t).needs_refresh now2 = true) := by
  constructor
  · cases h : c.last_refresh with
    | none => simp [Cache.needs_refresh, h]
    | some t => simp [Cache.needs_refresh, h]
  · intro forms t httl
    constructor
    · simp [Cache.update_forms, Cache.needs_refresh]
      omega
    · intro now2 h2
      simp [Cache.update_forms, Cache.needs_refresh]
      omega

/-- Witness for C6 at the default TTL of 300 seconds. -/
theorem needs_refresh_iff_stale_witness :
    (Cache.update_forms {} [] 100).needs_refresh 100 = false ∧
    (Cache.update_forms {} [] 100).needs_refresh 401 = true :=
  ⟨((needs_refresh_iff_stale {} 100).2 [] 100 (by norm_num)).1,
   ((needs_refresh_iff_stale {} 100).2 [] 100 (by norm_num)).2 401 (by norm_num)⟩

/-- C7: `update_forms` wholly replaces the cached mapping: after two
successive updates, `get_form k` can only return a form of the second list
whose `link_name` is `k` — never an entry present only in the first list. -/
theorem update_forms_total_replacement (c : Cache) (forms1 forms2 : List ZohoForm)
    (t1 t2 : Int) (k : String) (f : ZohoForm)
    (h : ((c.update_forms forms1 t1).update_forms forms2 t2).get_form k = some f) :
    f ∈ forms2 ∧ f.link_name = k := by
  unfold Cache.get_form Cache.update_forms dictGet at h
  rw [Option.map_eq_some'] at h
  obtain ⟨p, hfind, hp2⟩ := h
  have hpred : p.1 = k := by
    have := List.find?_some hfind
    simpa using this
  obtain ⟨g, hg, hpg⟩ := mem_dictOfForms (List.mem_of_find?_eq_some hfind)
  have hgf : g = f := by rw [hpg] at hp2; exact hp2
  refine ⟨hgf ▸ hg, ?_⟩
  rw [← hgf, ← hpred, hpg]

/-- Witness for C7: after updating with `[formA]` then `[formB]`, looking up
`"b"` yields `formB`, which belongs to the second list. -/
theorem update_forms_total_replacement_witness :
    formB ∈ [formB] ∧ formB.link_name = "b" :=
  update_forms_total_replacement {} [formA] [formB] 0 1 "b" formB rfl

/-! ### Resource router -/

theorem parseParts_ne_empty {netloc path s : String}
    (h : s ∈ parseParts netloc path) : s ≠ "" := by
  unfold parseParts at h
  simpa using (List.mem_filter.mp h).2

theorem handle_zoho_eq_dispatch (netloc path : String) (forms : List ZohoForm) :
    handle_read_resource "zoho" netloc path forms
      = dispatchParts (parseParts netloc path) forms := rfl

/-- C4 counterexample: for the single-segment address `zoho://banana`, whose
first segment is none of forms/reports/form/report, the handler raises
Missing link name — not Unknown resource type as the claim states. -/
theorem unknown_single_segment_cex :
    handle_read_resource "zoho" "banana" "" [] = .errMissingLinkName "banana" ∧
    ReadOutcome.errMissingLinkName "banana" ≠ .errUnknownResourceType "banana" := by
  refine ⟨rfl, fun h => ?_⟩
  exact ReadOutcome.noConfusion h

/-- C4 (amended): a non-`zoho` scheme raises Unsupported scheme; no
non-empty path segments raises Empty path; a single segment other than
`forms`/`reports` — `form`, `report` or an unknown type alike — raises
Missing link name (the missing-link-name check precedes the resource-type
check); `form` with a link name matching no form raises Not found; an
unknown first segment raises Unknown resource type only when a second
segment is present. -/
theorem read_resource_error_kinds (scheme netloc path : String)
    (forms : List ZohoForm) :
    (scheme ≠ "zoho" →
      handle_read_resource scheme netloc path forms = .errUnsupportedScheme scheme) ∧
    (parseParts netloc path = [] →
      handle_read_resource "zoho" netloc path forms = .errEmptyPath) ∧
    (∀ rt, parseParts netloc path = [rt] → rt ≠ "forms" → rt ≠ "reports" →
      handle_read_resource "zoho" netloc path forms = .errMissingLinkName rt) ∧
    (∀ link rest, parseParts netloc path = "form" :: link :: rest →
      (∀ f ∈ forms, f.link_name ≠ link) →
      handle_read_resource "zoho" netloc path forms = .errFormNotFound link) ∧
    (∀ rt second rest, parseParts netloc path = rt :: second :: rest →
      rt ≠ "forms" → rt ≠ "reports" → rt ≠ "form" → rt ≠ "report" →
      handle_read_resource "zoho" netloc path forms = .errUnknownResourceType rt) := by
  refine ⟨?_, ?_, ?_, ?_, ?_⟩
  · intro h
    simp [handle_read_resource, h]
  · intro h
    rw [handle_zoho_eq_dispatch, h]
    rfl
  · intro rt h hf hr
    have hne : rt ≠ "" := parseParts_ne_empty (h ▸ List.mem_singleton.mpr rfl)
    rw [handle_zoho_eq_dispatch, h]
    simp [dispatchParts, hne, hf, hr]
  · intro link rest h hnone
    have hfind : forms.find? (fun f => f.link_name = link) = none := by
      rw [List.find?_eq_none]
      intro f hf
      simp [hnone f hf]
    rw [handle_zoho_eq_dispatch, h]
    simp [dispatchParts, hfind]
  · intro rt second rest h hf hr hfo hre
    have hne : rt ≠ "" := parseParts_ne_empty (h ▸ List.mem_cons_self _ _)
    rw [handle_zoho_eq_dispatch, h]
    simp [dispatchParts, hne, hf, hr, hfo, hre]

/-- Witness for C4 at one concrete address per error kind. -/
theorem read_resource_error_kinds_witness :
    handle_read_resource "http" "forms" "" [] = .errUnsupportedScheme "http" ∧
    handle_read_resource "zoho" "" "///" [] = .errEmptyPath ∧
    handle_read_resource "zoho" "report" "" [] = .errMissingLinkName "report" ∧
    handle_read_resource "zoho" "form" "/ghost" [] = .errFormNotFound "ghost" ∧
    handle_read_resource "zoho" "banana" "/x" [] = .errUnknownResourceType "banana" :=
  ⟨(read_resource_error_kinds "http" "forms" "" []).1 (by decide),
   (read_resource_error_kinds "zoho" "" "///" []).2.1 rfl,
   (read_resource_error_kinds "zoho" "report" "" []).2.2.1 "report" rfl
     (by decide) (by decide),
   (read_resource_error_kinds "zoho" "form" "/ghost" []).2.2.2.1 "ghost" [] rfl
     (by simp),
   (read_resource_error_kinds "zoho" "banana" "/x" []).2.2.2.2 "banana" "x" [] rfl
     (by decide) (by decide) (by decide) (by decide)⟩

/-- C5: whenever the address parses to `report/{link}/filter/{criteria}` the
handler invokes `get_records(link, criteria)` with the criteria string
passed through verbatim; `report/{link}` alone, or with a `filter` segment
but no fourth segment, invokes `get_records` with no criteria.  At the
spec's concrete address the criteria survives unescaped and unmodified. -/
theorem report_filter_criteria_passthrough (forms : List ZohoForm)
    (netloc path link crit : String) :
    (parseParts netloc path = ["report", link, "filter", crit] →
      handle_read_resource "zoho" netloc path forms
        = .reportRecords link (some crit)) ∧
    (parseParts netloc path = ["report", link] →
      handle_read_resource "zoho" netloc path forms = .reportRecords link none) ∧
    (parseParts netloc path = ["report", link, "filter"] →
      handle_read_resource "zoho" netloc path forms = .reportRecords link none) ∧
    handle_read_resource "zoho" "report" "/Orders/filter/Status==\"Open\"" forms
      = .reportRecords "Orders" (some "Status==\"Open\"") := by
  refine ⟨?_, ?_, ?_, rfl⟩ <;> intro h <;> rw [handle_zoho_eq_dispatch, h] <;> rfl

/-- Witness for C5 at concrete addresses. -/
theorem report_filter_criteria_passthrough_witness :
    handle_read_resource "zoho" "report" "/Orders/filter/Status==\"Open\"" []
      = .reportRecords "Orders" (some "Status==\"Open\"") ∧
    handle_read_resource "zoho" "report" "/Orders" []
      = .reportRecords "Orders" none ∧
    handle_read_resource "zoho" "report" "/Orders/filter" []
      = .reportRecords "Orders" none :=
  ⟨(report_filter_criteria_passthrough [] "report" "/Orders/filter/Status==\"Open\""
      "Orders" "Status==\"Open\"").1 rfl,
   (report_filter_criteria_passthrough [] "report" "/Orders" "Orders" "").2.1 rfl,
   (report_filter_criteria_passthrough [] "report" "/Orders/filter" "Orders" "").2.2.1 rfl⟩

/-! ### Record operations -/

/-- C10: `get_records` issues exactly one request, whose query parameters
contain `criteria` iff the argument is truthy (present and non-empty) and
`limit` iff the argument is truthy (present and non-zero); an empty-string
criteria and a zero limit are omitted, exactly as absent arguments are. -/
theorem get_records_params_truthy (svc : ZohoCreatorService)
    (http : HttpReq → HttpResp) (fln : String) (criteria : Option String)
    (limit : Option Int) :
    (svc.get_records http fln criteria limit).2 =
      [{ method := "GET", url := recordsUrl svc fln, headers := svc.headers,
         params := recordsParams criteria limit }] ∧
    (∀ x, ("criteria", x) ∈ recordsParams criteria limit ↔
      criteria = some x ∧ x ≠ "") ∧
    (∀ x, ("limit", x) ∈ recordsParams criteria limit ↔
      ∃ n, limit = some n ∧ n ≠ 0 ∧ x = toString n) ∧
    recordsParams (some "") limit = recordsParams none limit ∧
    recordsParams criteria (some 0) = recordsParams criteria none := by
  refine ⟨rfl, ?_, ?_, ?_, ?_⟩
  · intro x
    unfold recordsParams
    constructor
    · intro hx
      rcases List.mem_append.mp hx with h | h
      · rcases criteria with _ | s
        · simp [truthyStr] at h
        · by_cases hs : s = ""
          · simp [truthyStr, hs] at h
          · simp [truthyStr, hs] at h
            exact ⟨by rw [h], by rw [h]; exact hs⟩
      · split at h <;> simp at h
    · rintro ⟨rfl, hx⟩
      refine List.mem_append.mpr (Or.inl ?_)
      simp [truthyStr, hx]
  · intro x
    unfold recordsParams
    constructor
    · intro hx
      rcases List.mem_append.mp hx with h | h
      · split at h <;> simp at h
      · rcases limit with _ | n
        · simp [truthyInt] at h
        · by_cases hn : n = 0
          · simp [truthyInt, hn] at h
          · simp [truthyInt, hn] at h
            exact ⟨n, rfl, hn, h⟩
    · rintro ⟨n, rfl, hn, rfl⟩
      refine List.mem_append.mpr (Or.inr ?_)
      simp [truthyInt, hn]
  · simp [recordsParams, truthyStr]
  · simp [recordsParams, truthyInt]

theorem parseWireTimes_inv {j : Json} {p : PyDateTime × PyDateTime}
    (hp : parseWireTimes j = some p) :
    ∃ ct mt, jsonStrField j "Created_Time" = some ct ∧
      jsonStrField j "Modified_Time" = some mt ∧
      fromisoformat (normZ ct) = some p.1 ∧
      fromisoformat (normZ mt) = some p.2 := by
  unfold parseWireTimes at hp
  simp only [bind, Option.bind_eq_some] at hp
  obtain ⟨ct, hct, mt, hmt, created, hcreated, modified, hmodified, hp⟩ := hp
  injection hp with hp
  refine ⟨ct, mt, hct, hmt, ?_, ?_⟩
  · rw [← hp]
    exact hcreated
  · rw [← hp]
    exact hmodified

theorem recordFromWire_fields {fln : String} {j : Json} {rec : ZohoRecord}
    (h : recordFromWire fln j = some rec) :
    j.asObj = some rec.data ∧ jsonStrField j "ID" = some rec.id ∧
    parseWireTimes j = some (rec.created_time, rec.modified_time) := by
  unfold recordFromWire at h
  simp only [bind, Option.bind_eq_some, Option.some.injEq] at h
  obtain ⟨obj, hobj, id, hid, times, htimes, h⟩ := h
  subst h
  exact ⟨hobj, hid, by simpa using htimes⟩

theorem recordFromSingle_fields {rid fln : String} {j : Json} {rec : ZohoRecord}
    (h : recordFromSingle rid fln j = some rec) :
    j.asObj = some rec.data ∧ rec.id = rid ∧
    parseWireTimes j = some (rec.created_time, rec.modified_time) := by
  unfold recordFromSingle at h
  simp only [bind, Option.bind_eq_some, Option.some.injEq] at h
  obtain ⟨obj, hobj, times, htimes, h⟩ := h
  subst h
  exact ⟨hobj, rfl, by simpa using htimes⟩

theorem recordFromCreateResp_fields {fln : String} {data : List (String × Json)}
    {j : Json} {rec : ZohoRecord} (h : recordFromCreateResp fln data j = some rec) :
    rec.data = data ∧ jsonStrField j "ID" = some rec.id ∧
    parseWireTimes j = some (rec.created_time, rec.modified_time) := by
  unfold recordFromCreateResp at h
  simp only [bind, Option.bind_eq_some, Option.some.injEq] at h
  obtain ⟨id, hid, times, htimes, h⟩ := h
  subst h
  exact ⟨rfl, hid, by simpa using htimes⟩

theorem recordFromUpdateResp_fields {rid fln : String} {data : List (String × Json)}
    {j : Json} {rec : ZohoRecord} (h : recordFromUpdateResp rid fln data j = some rec) :
    rec.data = data ∧ rec.id = rid ∧
    parseWireTimes j = some (rec.created_time, rec.modified_time) := by
  unfold recordFromUpdateResp at h
  simp only [bind, Option.bind_eq_some, Option.some.injEq] at h
  obtain ⟨times, htimes, h⟩ := h
  subst h
  exact ⟨rfl, rfl, by simpa using htimes⟩

theorem recordResult_ok {http : HttpReq → HttpResp} {req : HttpReq}
    {mk : Json → Option ZohoRecord} {rec : ZohoRecord}
    (h : recordResult http req mk = .ok rec) : ∃ rj, mk rj = some rec := by
  unfold recordResult at h
  split at h
  · exact absurd h (by simp)
  · split at h
    · exact absurd h (by simp)
    · split at h
      · exact absurd h (by simp)
      · rename_i rjson hget ropt r hmk
        injection h with h
        exact ⟨rjson, by rw [hmk, h]⟩

/-- C8: every record the service returns has its `Created_Time` and
`Modified_Time` wire strings passed through the Z-to-+00:00 normalization
before `fromisoformat`; the concrete instant `2024-01-01T00:00:00Z`
normalizes to, and parses as, the same UTC instant as
`2024-01-01T00:00:00+00:00`. -/
theorem timestamp_z_normalization :
    (∀ (j : Json) (p : PyDateTime × PyDateTime) (ct : String),
      parseWireTimes j = some p → jsonStrField j "Created_Time" = some ct →
      fromisoformat (normZ ct) = some p.1) ∧
    (∀ (j : Json) (p : PyDateTime × PyDateTime) (mt : String),
      parseWireTimes j = some p → jsonStrField j "Modified_Time" = some mt →
      fromisoformat (normZ mt) = some p.2) ∧
    (∀ fln j rec, recordFromWire fln j = some rec →
      parseWireTimes j = some (rec.created_time, rec.modified_time)) ∧
    (∀ rid fln j rec, recordFromSingle rid fln j = some rec →
      parseWireTimes j = some (rec.created_time, rec.modified_time)) ∧
    (∀ fln data j rec, recordFromCreateResp fln data j = some rec →
      parseWireTimes j = some (rec.created_time, rec.modified_time)) ∧
    (∀ rid fln data j rec, recordFromUpdateResp rid fln data j = some rec →
      parseWireTimes j = some (rec.created_time, rec.modified_time)) ∧
    normZ "2024-01-01T00:00:00Z" = "2024-01-01T00:00:00+00:00" ∧
    (fromisoformat (normZ "2024-01-01T00:00:00Z")).bind PyDateTime.toUTCSeconds
      = some 1704067200 ∧
    (fromisoformat (normZ "2024-01-01T00:00:00+00:00")).bind PyDateTime.toUTCSeconds
      = some 1704067200 := by
  refine ⟨?_, ?_, ?_, ?_, ?_, ?_, rfl, rfl, rfl⟩
  · intro j p ct hp hct
    obtain ⟨ct', mt', hct', hmt', hc, hm⟩ := parseWireTimes_inv hp
    rw [hct] at hct'
    injection hct' with hct'
    rw [hct']
    exact hc
  · intro j p mt hp hmt
    obtain ⟨ct', mt', hct', hmt', hc, hm⟩ := parseWireTimes_inv hp
    rw [hmt] at hmt'
    injection hmt' with hmt'
    rw [hmt']
    exact hm
  · exact fun fln j rec h => (recordFromWire_fields h).2.2
  · exact fun rid fln j rec h => (recordFromSingle_fields h).2.2
  · exact fun fln data j rec h => (recordFromCreateResp_fields h).2.2
  · exact fun rid fln data j rec h => (recordFromUpdateResp_fields h).2.2

/-- Witness for C8: both spellings of the instant parse to `dtJan2024`. -/
theorem timestamp_z_normalization_witness :
    fromisoformat (normZ "2024-01-01T00:00:00Z") = some dtJan2024 ∧
    fromisoformat (normZ "2024-01-01T00:00:00+00:00") = some dtJan2024 :=
  ⟨timestamp_z_normalization.1 tsRecordJson (dtJan2024, dtJan2024)
     "2024-01-01T00:00:00Z" rfl rfl,
   timestamp_z_normalization.2.1 tsRecordJson (dtJan2024, dtJan2024)
     "2024-01-01T00:00:00+00:00" rfl rfl⟩

/-- C9 counterexample: upstream's PATCH response carries `ID = "999"`, yet
`update_record(..., "123", ...)` returns a record whose id is the
caller-supplied `"123"` — the id does not come from the upstream
response. -/
theorem update_record_id_not_from_response_cex :
    (mockSvc.update_record writeHttp "test_form" "123" cexData).1
      = .ok cexUpdatedRec ∧
    cexUpdatedRec.id = "123" ∧
    jsonStrField cexRespRecord "ID" = some "999" ∧
    ("123" : String) ≠ "999" :=
  ⟨rfl, rfl, rfl, by decide⟩

/-- C9 (amended): for every successful `create_record` and `update_record`
the returned `data` is exactly the caller-supplied mapping (upstream's echo
is not reflected) and the timestamps come from the upstream response; the
id comes from the upstream response for `create_record`, while
`update_record` returns the caller-supplied `record_id` as the id. -/
theorem write_ops_echo_policy :
    (∀ fln data j rec, recordFromCreateResp fln data j = some rec →
      rec.data = data ∧ jsonStrField j "ID" = some rec.id ∧
      parseWireTimes j = some (rec.created_time, rec.modified_time)) ∧
    (∀ rid fln data j rec, recordFromUpdateResp rid fln data j = some rec →
      rec.data = data ∧ rec.id = rid ∧
      parseWireTimes j = some (rec.created_time, rec.modified_time)) ∧
    (∀ svc (http : HttpReq → HttpResp) fln data rec,
      (ZohoCreatorService.create_record svc http fln data).1 = .ok rec →
      rec.data = data) ∧
    (∀ svc (http : HttpReq → HttpResp) fln rid data rec,
      (ZohoCreatorService.update_record svc http fln rid data).1 = .ok rec →
      rec.data = data ∧ rec.id = rid) := by
  refine ⟨fun _ _ _ _ h => recordFromCreateResp_fields h,
          fun _ _ _ _ _ h => recordFromUpdateResp_fields h, ?_, ?_⟩
  · intro svc http fln data rec h
    obtain ⟨rj, hmk⟩ := recordResult_ok h
    exact (recordFromCreateResp_fields hmk).1
  · intro svc http fln rid data rec h
    obtain ⟨rj, hmk⟩ := recordResult_ok h
    exact ⟨(recordFromUpdateResp_fields hmk).1, (recordFromUpdateResp_fields hmk).2.1⟩

/-- Witness for C9 against the `writeHttp` upstream. -/
theorem write_ops_echo_policy_witness :
    cexCreatedRec.data = cexData ∧ cexUpdatedRec.data = cexData ∧
    cexUpdatedRec.id = "123" :=
  ⟨write_ops_echo_policy.2.2.1 mockSvc writeHttp "test_form" cexData
     cexCreatedRec rfl,
   (write_ops_echo_policy.2.2.2 mockSvc writeHttp "test_form" "123" cexData
     cexUpdatedRec rfl).1,
   (write_ops_echo_policy.2.2.2 mockSvc writeHttp "test_form" "123" cexData
     cexUpdatedRec rfl).2⟩

/-- Witness for C10: an empty-string criteria together with a zero limit
issues a request with no query parameters at all. -/
theorem get_records_params_truthy_witness :
    (mockSvc.get_records failHttp "test_form" (some "") (some 0)).2 =
      [{ method := "GET", url := recordsUrl mockSvc "test_form",
         headers := mockSvc.headers,
         params := recordsParams (some "") (some 0) }] ∧
    recordsParams (some "") (some 0) = recordsParams none (some 0) ∧
    ¬ (("criteria", "") ∈ recordsParams (some "") (some 0)) :=
  ⟨(get_records_params_truthy mockSvc failHttp "test_form" (some "") (some 0)).1,
   (get_records_params_truthy mockSvc failHttp "test_form" (some "") (some 0)).2.2.2.1,
   fun h => by
    have := ((get_records_params_truthy mockSvc failHttp "test_form" (some "")
      (some 0)).2.1 "").mp h
    exact this.2 rfl⟩

/-! ### `list_forms`: caching, fan-out and failure atomicity -/

theorem getJson_ok_resp {http : HttpReq → HttpResp} {req : HttpReq} {j : Json}
    (h : getJson http req = .ok j) :
    (http req).success = true ∧ (http req).body = some j := by
  unfold getJson at h
  dsimp only at h
  split at h
  · split at h
    · rename_i jv hb
      injection h with h
      exact ⟨by assumption, by rw [hb, h]⟩
    · exact absurd h (by simp)
  · exact absurd h (by simp)

theorem getJson_error_resp {http : HttpReq → HttpResp} {req : HttpReq}
    {e : UpstreamError} (h : getJson http req = .error e) : errorOf http req e := by
  unfold getJson at h
  dsimp only at h
  split at h
  · split at h
    · exact absurd h (by simp)
    · rename_i hb
      injection h with h
      exact Or.inr ⟨h.symm, by assumption⟩
  · rename_i hs
    injection h with h
    exact Or.inl ⟨h.symm, by simpa using hs⟩

theorem fieldsResult_ok {http : HttpReq → HttpResp} {req : HttpReq}
    {fields : List ZohoField} (h : fieldsResult http req = .ok fields) :
    (http req).success = true ∧ (http req).body ≠ none := by
  unfold fieldsResult at h
  split at h
  · exact absurd h (by simp)
  · rename_i body hg
    have := getJson_ok_resp hg
    exact ⟨this.1, by rw [this.2]; exact fun hc => Option.noConfusion hc⟩

theorem fieldsResult_error {http : HttpReq → HttpResp} {req : HttpReq}
    {e : UpstreamError} (h : fieldsResult http req = .error e) :
    errorOf http req e := by
  unfold fieldsResult at h
  split at h
  · rename_i hg
    injection h with h
    exact h ▸ getJson_error_resp hg
  · rename_i body hg
    have hgr := getJson_ok_resp hg
    split at h
    · injection h with h
      exact Or.inr ⟨h.symm, hgr.1⟩
    · split at h
      · injection h with h
        exact Or.inr ⟨h.symm, hgr.1⟩
      · exact absurd h (by simp)

theorem fetchForms_ok {svc : ZohoCreatorService} {http : HttpReq → HttpResp}
    {source : HttpReq} :
    ∀ (l : List Json) (forms : List ZohoForm) (reqs : List HttpReq),
      fetchForms svc http source l = (.ok forms, reqs) →
      reqs = forms.map (fun f => fieldsReq svc f.link_name) ∧
      ∀ r ∈ reqs, (http r).success = true ∧ (http r).body ≠ none := by
  intro l
  induction l with
  | nil =>
    intro forms reqs h
    unfold fetchForms at h
    obtain ⟨h1, h2⟩ := Prod.mk.injEq .. ▸ h
    injection h1 with h1
    subst h1
    subst h2
    exact ⟨rfl, by simp⟩
  | cons fd rest ih =>
    intro forms reqs h
    unfold fetchForms at h
    split at h
    · exact absurd h (by simp)
    · rename_i link hlink
      split at h
      · exact absurd h (by simp)
      · rename_i fields1 reqs1 hgff
        split at h
        · exact absurd h (by simp)
        · rename_i disp hdisp
          split at h
          · exact absurd h (by simp)
          · rename_i forms2 reqs2 hrest
            obtain ⟨h1, h2⟩ := Prod.mk.injEq .. ▸ h
            injection h1 with h1
            subst h1
            subst h2
            have hreqs1 : reqs1 = [fieldsReq svc link] := by
              have := congrArg Prod.snd hgff
              simpa [ZohoCreatorService.get_form_fields] using this.symm
            have hfst : fieldsResult http (fieldsReq svc link) = .ok fields1 := by
              have := congrArg Prod.fst hgff
              simpa [ZohoCreatorService.get_form_fields] using this
            obtain ⟨ihmap, ihgood⟩ := ih _ _ hrest
            constructor
            · rw [hreqs1, ihmap]
              rfl
            · intro r hr
              rw [hreqs1] at hr
              rcases List.mem_append.mp hr with hr | hr
              · rw [List.mem_singleton.mp hr]
                exact fieldsResult_ok hfst
              · exact ihgood r hr

theorem fetchForms_error {svc : ZohoCreatorService} {http : HttpReq → HttpResp}
    {source : HttpReq} (hsrc : (http source).success = true) :
    ∀ (l : List Json) (e : UpstreamError) (reqs : List HttpReq),
      fetchForms svc http source l = (.error e, reqs) →
      ∃ r ∈ source :: reqs, errorOf http r e := by
  intro l
  induction l with
  | nil =>
    intro e reqs h
    unfold fetchForms at h
    obtain ⟨h1, _⟩ := Prod.mk.injEq .. ▸ h
    exact absurd h1 (by simp)
  | cons fd rest ih =>
    intro e reqs h
    unfold fetchForms at h
    split at h
    · obtain ⟨h1, h2⟩ := Prod.mk.injEq .. ▸ h
      injection h1 with h1
      exact ⟨source, List.mem_cons_self _ _, Or.inr ⟨h1.symm, hsrc⟩⟩
    · rename_i link hlink
      split at h
      · rename_i e0 reqs1 hgff
        obtain ⟨h1, h2⟩ := Prod.mk.injEq .. ▸ h
        injection h1 with h1
        subst h2
        have hreqs1 : reqs1 = [fieldsReq svc link] := by
          have := congrArg Prod.snd hgff
          simpa [ZohoCreatorService.get_form_fields] using this.symm
        have hfst : fieldsResult http (fieldsReq svc link) = .error e0 := by
          have := congrArg Prod.fst hgff
          simpa [ZohoCreatorService.get_form_fields] using this
        refine ⟨fieldsReq svc link, ?_, h1 ▸ fieldsResult_error hfst⟩
        rw [hreqs1]
        simp
      · rename_i fields1 reqs1 hgff
        split at h
        · rename_i hdisp
          obtain ⟨h1, h2⟩ := Prod.mk.injEq .. ▸ h
          injection h1 with h1
          exact ⟨source, List.mem_cons_self _ _, Or.inr ⟨h1.symm, hsrc⟩⟩
        · rename_i disp hdisp
          split at h
          · rename_i e0 reqs2 hrest
            obtain ⟨h1, h2⟩ := Prod.mk.injEq .. ▸ h
            injection h1 with h1
            subst h1
            subst h2
            obtain ⟨r, hrmem, hrerr⟩ := ih _ _ hrest
            rcases List.mem_cons.mp hrmem with hr | hr
            · exact ⟨source, List.mem_cons_self _ _, hr ▸ hrerr⟩
            · exact ⟨r, List.mem_cons_of_mem _ (List.mem_append.mpr (Or.inr hr)),
                hrerr⟩
          · exact absurd h (by simp)

/-- C1: when any upstream interaction of `list_forms` — the forms GET or any
per-form fields GET — has a non-success status or a malformed body, the call
fails with an `UpstreamError` identifying that request's endpoint and
status, and the service (cache included) is returned unchanged:
`update_forms` runs only after every request has succeeded. -/
theorem list_forms_failure_is_atomic (svc : ZohoCreatorService)
    (http : HttpReq → HttpResp) (now : Int) (fr : Bool) :
    (∀ e trace svc', svc.list_forms http now fr = (.error e, trace, svc') →
      svc' = svc ∧ ∃ r ∈ trace, errorOf http r e) ∧
    (∀ forms trace svc', svc.list_forms http now fr = (.ok forms, trace, svc') →
      ∀ r ∈ trace, (http r).success = true ∧ (http r).body ≠ none) := by
  constructor
  · intro e trace svc' h
    unfold ZohoCreatorService.list_forms at h
    split at h
    · exact absurd h (by simp)
    · dsimp only at h
      split at h
      · rename_i e0 hg
        obtain ⟨hA, hBC⟩ := Prod.mk.injEq .. ▸ h
        obtain ⟨hB, hC⟩ := Prod.mk.injEq .. ▸ hBC
        subst hB
        subst hC
        injection hA with hA
        exact ⟨rfl, formsReq svc, by simp, hA ▸ getJson_error_resp hg⟩
      · rename_i body hg
        split at h
        · obtain ⟨hA, hBC⟩ := Prod.mk.injEq .. ▸ h
          obtain ⟨hB, hC⟩ := Prod.mk.injEq .. ▸ hBC
          subst hB
          subst hC
          injection hA with hA
          exact ⟨rfl, formsReq svc, by simp,
            Or.inr ⟨hA.symm, (getJson_ok_resp hg).1⟩⟩
        · rename_i formList hforms
          split at h
          · rename_i e0 reqs hfetch
            obtain ⟨hA, hBC⟩ := Prod.mk.injEq .. ▸ h
            obtain ⟨hB, hC⟩ := Prod.mk.injEq .. ▸ hBC
            subst hB
            subst hC
            injection hA with hA
            obtain ⟨r, hrmem, hrerr⟩ :=
              fetchForms_error (getJson_ok_resp hg).1 _ _ _ hfetch
            exact ⟨rfl, r, hrmem, hA ▸ hrerr⟩
          · exact absurd h (by simp)
  · intro forms trace svc' h
    unfold ZohoCreatorService.list_forms at h
    split at h
    · obtain ⟨hA, hBC⟩ := Prod.mk.injEq .. ▸ h
      obtain ⟨hB, hC⟩ := Prod.mk.injEq .. ▸ hBC
      subst hB
      intro r hr
      simp at hr
    · dsimp only at h
      split at h
      · exact absurd h (by simp)
      · rename_i body hg
        split at h
        · exact absurd h (by simp)
        · rename_i formList hforms
          split at h
          · exact absurd h (by simp)
          · rename_i forms2 reqs hfetch
            obtain ⟨hA, hBC⟩ := Prod.mk.injEq .. ▸ h
            obtain ⟨hB, hC⟩ := Prod.mk.injEq .. ▸ hBC
            subst hB
            intro r hr
            rcases List.mem_cons.mp hr with hr | hr
            · subst hr
              have := getJson_ok_resp hg
              exact ⟨this.1, by rw [this.2]; exact fun hc => Option.noConfusion hc⟩
            · exact (fetchForms_ok _ _ _ hfetch).2 r hr

/-- Witness for C1: against an all-500 upstream, `list_forms` fails with the
error of the forms endpoint and hands the service back unchanged. -/
theorem list_forms_failure_is_atomic_witness :
    mockSvc = mockSvc ∧
    ∃ r ∈ [formsReq mockSvc],
      errorOf failHttp r (.httpStatus "https://api/forms" 500) :=
  (list_forms_failure_is_atomic mockSvc failHttp 0 true).1
    (.httpStatus "https://api/forms" 500) [formsReq mockSvc] mockSvc rfl

/-- C3: with `force_refresh` false and a fresh cache, `list_forms` returns
exactly the cached snapshot's values and issues no request; otherwise a
successful call issues the forms GET followed by exactly one fields GET per
returned form, in order, and hands back the service with the cache replaced
by `update_forms` on the new list. -/
theorem list_forms_fresh_cache_and_fanout (svc : ZohoCreatorService)
    (http : HttpReq → HttpResp) (now : Int) :
    (svc.cache.needs_refresh now = false →
      svc.list_forms http now false = (.ok (dictValues svc.cache.forms), [], svc)) ∧
    (∀ fr forms trace svc', (fr = true ∨ svc.cache.needs_refresh now = true) →
      svc.list_forms http now fr = (.ok forms, trace, svc') →
      trace = formsReq svc :: forms.map (fun f => fieldsReq svc f.link_name) ∧
      svc' = { svc with cache := svc.cache.update_forms forms now }) := by
  constructor
  · intro h
    unfold ZohoCreatorService.list_forms
    rw [h]
    rfl
  · intro fr forms trace svc' hor h
    have hcond : (!fr && !(svc.cache.needs_refresh now)) = false := by
      rcases hor with h' | h' <;> simp [h']
    unfold ZohoCreatorService.list_forms at h
    rw [hcond] at h
    simp only [Bool.false_eq_true, if_false] at h
    split at h
    · exact absurd h (by simp)
    · rename_i body hg
      split at h
      · exact absurd h (by simp)
      · rename_i formList hforms
        split at h
        · exact absurd h (by simp)
        · rename_i forms2 reqs hfetch
          obtain ⟨hA, hBC⟩ := Prod.mk.injEq .. ▸ h
          obtain ⟨hB, hC⟩ := Prod.mk.injEq .. ▸ hBC
          injection hA with hA
          subst hA
          subst hB
          subst hC
          exact ⟨by rw [(fetchForms_ok _ _ _ hfetch).1], rfl⟩

/-- Witness for C3: the fresh-cache fast path against `mockSvcAfter`, and
the refreshing path against the healthy mock upstream. -/
theorem list_forms_fresh_cache_and_fanout_witness :
    mockSvcAfter.list_forms mockHttp 0 false
      = (.ok (dictValues mockSvcAfter.cache.forms), [], mockSvcAfter) ∧
    ([formsReq mockSvc, fieldsReq mockSvc "test_form"]
        = formsReq mockSvc :: [testForm].map (fun f => fieldsReq mockSvc f.link_name) ∧
      mockSvcAfter = { mockSvc with cache := mockSvc.cache.update_forms [testForm] 0 }) :=
  ⟨(list_forms_fresh_cache_and_fanout mockSvcAfter mockHttp 0).1 rfl,
   (list_forms_fresh_cache_and_fanout mockSvc mockHttp 0).2 true [testForm]
     [formsReq mockSvc, fieldsReq mockSvc "test_form"] mockSvcAfter
     (Or.inl rfl) rfl⟩

/-! ### Connection lifecycle -/

/-- C2: the per-call `async with self._client` wrapper evaluated on two
successive requests.  The first call enters the unopened shared client and
— contrary to borrow semantics — its scope exit closes it; the second
call's `__aenter__` then raises `RuntimeError("Cannot reopen a client
instance, once it has been closed.")` instead of using the connection.
The shared client is thus released by every request's scope exit, not only
by `close()` (`serviceClose`). -/
theorem per_call_scope_closes_shared_client :
    requestLifecycle .unopened = (.ok (), .closed) ∧
    requestLifecycle .closed = (.error .cannotReopen, .closed) ∧
    serviceClose .unopened = .closed :=
  ⟨rfl, rfl, rfl⟩

end Scaflog
